import Mathlib

/-!
Shallow embedding of the step-detection and rolling-hour aggregation engine of
`src/imu.c` (pico_activity_tracker).

Modelling conventions:
* `uint32_t` / `uint16_t` / `uint8_t` values are `ℕ` with explicit `% 2^32`
  (`U32`) or `% 2^16` (`U16`) at every operation where C overflow semantics
  matter; the per-minute index (`uint8_t`, always kept in `[0,60)` by the code's
  `% 60`) is `Fin 60`.
* `float` quantities (magnitude, low-pass baseline, high-pass) are `ℚ`; the
  constants `0.35f` and `0.01f` are the exact rationals `35/100` and `1/100`.
* The SPI accelerometer read (`imu_read_accel_raw_internal`) and the `sqrtf`
  magnitude computation are the hardware/sample boundary: `imu_update` takes the
  sample's magnitude `mag = sqrt(ax_g² + ay_g² + az_g²)` as an input, exactly as
  the engine consumes it at line 313 of `imu.c`.  The WHO_AM_I byte read during
  `imu_init` is likewise an input.
* The stored raw/filtered sample fields (`s_raw_*`, `s_filt_*`) are pure
  diagnostics (pass-through of the external sample) and are not part of the
  modelled state.
* The C `while` loop of `imu_history_advance_buckets` is embedded as structural
  recursion on a fuel that bounds its iteration count: each iteration decreases
  `(now - start) % 2^32` by exactly 60000, so `diff / 60000 + 1` units of fuel
  are never exhausted, and the fuel-indexed function equals the C loop.
-/

abbrev U32 : ℕ := 4294967296

abbrev U16 : ℕ := 65536

/-- `IMU_STEP_THRESHOLD_G` (0.35f), imu.c line 70. -/
abbrev IMU_STEP_THRESHOLD_G : ℚ := 35 / 100

/-- `IMU_STEP_MIN_INTERVAL_MS` (350), imu.c line 71. -/
abbrev IMU_STEP_MIN_INTERVAL_MS : ℕ := 350

/-- `IMU_HISTORY_MINUTES` (60), imu.c line 72. -/
abbrev IMU_HISTORY_MINUTES : ℕ := 60

/-- `IMU_STEP_GOAL_PER_HOUR` (250), imu.c line 73. -/
abbrev IMU_STEP_GOAL_PER_HOUR : ℕ := 250

/-- `IMU_MAG_LP_ALPHA` (0.01f), imu.c line 76. -/
abbrev IMU_MAG_LP_ALPHA : ℚ := 1 / 100

/-- `LSM6DS3_WHO_AM_I_VALUE` (0x6A), imu.c line 58. -/
abbrev LSM6DS3_WHO_AM_I_VALUE : ℕ := 0x6A

/-- The per-minute history state of imu.c lines 104-107:
`s_steps_per_min[60]` (uint16 buckets), `s_curr_min_idx` (uint8, kept in
`[0,60)`), `s_curr_bucket_start_ms` (uint32), `s_steps_last_hour_sum`
(uint32). -/
structure Hist where
  s_steps_per_min : Fin 60 → ℕ
  s_curr_min_idx : Fin 60
  s_curr_bucket_start_ms : ℕ
  s_steps_last_hour_sum : ℕ
deriving DecidableEq

/-- The engine state of imu.c lines 82-107 (minus the diagnostic raw/filtered
sample copies). -/
structure ImuState where
  s_initialized : Bool
  s_mag_lp_initialized : Bool
  s_mag_lp : ℚ
  s_mag_hp : ℚ
  s_total_steps : ℕ
  s_last_step_ms : ℕ
  hist : Hist
deriving DecidableEq

/-- `imu_history_reset` (imu.c lines 193-199): clear all buckets, index 0,
bucket start = now, running sum 0. -/
def imu_history_reset (now_ms : ℕ) : Hist :=
  { s_steps_per_min := fun _ => 0
    s_curr_min_idx := 0
    s_curr_bucket_start_ms := now_ms % U32
    s_steps_last_hour_sum := 0 }

/-- One iteration of the loop body of `imu_history_advance_buckets`
(imu.c lines 211-218): advance `s_curr_bucket_start_ms` by 60000, advance
`s_curr_min_idx` by 1 mod 60, subtract the incoming bucket's old value from
the running sum (uint32 wrapping subtraction), then zero that bucket. -/
def rotate_bucket (h : Hist) : Hist :=
  let idx1 : Fin 60 := h.s_curr_min_idx + 1
  { s_steps_per_min := Function.update h.s_steps_per_min idx1 0
    s_curr_min_idx := idx1
    s_curr_bucket_start_ms := (h.s_curr_bucket_start_ms + 60000) % U32
    s_steps_last_hour_sum :=
      (h.s_steps_last_hour_sum + U32 - h.s_steps_per_min idx1) % U32 }

/-- The `while ((now_ms - s_curr_bucket_start_ms) >= 60000u)` loop of
imu.c line 211, with a fuel argument bounding the iteration count
(each iteration shrinks `(now - start) % 2^32` by 60000). -/
def advance_go : ℕ → Hist → ℕ → Hist
  | 0, h, _ => h
  | fuel + 1, h, now =>
    if 60000 ≤ (now + U32 - h.s_curr_bucket_start_ms % U32) % U32 then
      advance_go fuel (rotate_bucket h) now
    else h

/-- `imu_history_advance_buckets` (imu.c lines 202-219): on the sentinel
`s_curr_bucket_start_ms == 0` reset the history to `now_ms`; otherwise run the
catch-up loop.  The fuel `diff / 60000 + 1` strictly exceeds the number of
iterations the loop performs. -/
def imu_history_advance_buckets (h : Hist) (now_ms : ℕ) : Hist :=
  let now := now_ms % U32
  if h.s_curr_bucket_start_ms = 0 then
    imu_history_reset now
  else
    advance_go ((now + U32 - h.s_curr_bucket_start_ms % U32) % U32 / 60000 + 1) h now

/-- The low-pass baseline value after one filter step (imu.c lines 315-321):
the first sample seeds the low-pass, later samples move it by
`alpha * (mag - lp)`. -/
def lpOf (s : ImuState) (mag : ℚ) : ℚ :=
  if s.s_mag_lp_initialized = false then mag
  else s.s_mag_lp + IMU_MAG_LP_ALPHA * (mag - s.s_mag_lp)

/-- `uint32_t dt = now_ms - s_last_step_ms` (imu.c line 329), uint32 wrapping
subtraction. -/
def dtOf (s : ImuState) (now_ms : ℕ) : ℕ :=
  (now_ms % U32 + U32 - s.s_last_step_ms % U32) % U32

/-- `imu_update` (imu.c lines 287-339).  `mag` is the magnitude of the freshly
acquired accelerometer sample in g (the hardware/sample boundary). -/
def imu_update (s : ImuState) (now_ms : ℕ) (mag : ℚ) : ImuState :=
  if s.s_initialized = false then s
  else
    let now := now_ms % U32
    let h1 := imu_history_advance_buckets s.hist now_ms
    let lp := lpOf s mag
    let hp := mag - lp
    let s1 : ImuState :=
      { s with hist := h1, s_mag_lp_initialized := true, s_mag_lp := lp, s_mag_hp := hp }
    if IMU_STEP_THRESHOLD_G < hp then
      if IMU_STEP_MIN_INTERVAL_MS < dtOf s now_ms then
        { s1 with
          s_last_step_ms := now
          s_total_steps := (s.s_total_steps + 1) % U32
          hist :=
            { h1 with
              s_steps_per_min :=
                Function.update h1.s_steps_per_min h1.s_curr_min_idx
                  ((h1.s_steps_per_min h1.s_curr_min_idx + 1) % U16)
              s_steps_last_hour_sum := (h1.s_steps_last_hour_sum + 1) % U32 } }
      else s1
    else s1

/-- `imu_init` (imu.c lines 225-285).  `whoami` is the byte read back from the
WHO_AM_I register (the hardware boundary).  On mismatch only
`s_initialized = false` is written (lines 250-255); on success the runtime
state is reset (lines 274-284). -/
def imu_init (s : ImuState) (whoami : ℕ) : ImuState × Bool :=
  if whoami ≠ LSM6DS3_WHO_AM_I_VALUE then
    ({ s with s_initialized := false }, false)
  else
    ({ s_initialized := true
       s_mag_lp_initialized := false
       s_mag_lp := 0
       s_mag_hp := 0
       s_total_steps := 0
       s_last_step_ms := 0
       hist := imu_history_reset 0 }, true)

/-- The boot state: all C statics are zero-initialized (imu.c lines 82-107). -/
def boot_state : ImuState :=
  { s_initialized := false
    s_mag_lp_initialized := false
    s_mag_lp := 0
    s_mag_hp := 0
    s_total_steps := 0
    s_last_step_ms := 0
    hist :=
      { s_steps_per_min := fun _ => 0
        s_curr_min_idx := 0
        s_curr_bucket_start_ms := 0
        s_steps_last_hour_sum := 0 } }

/-- `imu_get_total_steps` (imu.c lines 355-358). -/
def imu_get_total_steps (s : ImuState) : ℕ :=
  s.s_total_steps

/-- `imu_get_steps_last_hour` (imu.c lines 360-367): clamp the uint32 running
sum to the uint16 reporting range. -/
def imu_get_steps_last_hour (s : ImuState) : ℕ :=
  if 0xFFFF < s.hist.s_steps_last_hour_sum then 0xFFFF
  else s.hist.s_steps_last_hour_sum

/-- `imu_step_goal_reached` (imu.c lines 369-372). -/
def imu_step_goal_reached (s : ImuState) : Bool :=
  if IMU_STEP_GOAL_PER_HOUR ≤ imu_get_steps_last_hour s then true else false

/-- `imu_get_activity_level` (imu.c lines 379-392). -/
def imu_get_activity_level (s : ImuState) : ℕ :=
  let steps := imu_get_steps_last_hour s
  if steps < 50 then 0
  else if steps < IMU_STEP_GOAL_PER_HOUR then 1
  else if steps < IMU_STEP_GOAL_PER_HOUR * 2 then 2
  else 3

/-- The rolling-hour invariant of the spec: the running sum equals the sum of
the sixty per-minute buckets. -/
def hist_inv (h : Hist) : Prop :=
  h.s_steps_last_hour_sum = ∑ j, h.s_steps_per_min j

instance (h : Hist) : Decidable (hist_inv h) :=
  inferInstanceAs (Decidable (_ = _))

/-- The engine state right after a successful `imu_init` at boot. -/
def init_engine : ImuState :=
  (imu_init boot_state LSM6DS3_WHO_AM_I_VALUE).1

/-- Which bucket indices have been zeroed after `k` loop iterations starting
from current index `idx0`: those whose forward distance from `idx0` (mod 60)
lies in `[1, k]`; after 60 or more iterations, every bucket. -/
def bucket_evicted (idx0 : Fin 60) (k : ℕ) (j : Fin 60) : Prop :=
  (1 ≤ (j.val + 60 - idx0.val) % 60 ∧ (j.val + 60 - idx0.val) % 60 ≤ k) ∨ 60 ≤ k

instance (idx0 : Fin 60) (k : ℕ) (j : Fin 60) : Decidable (bucket_evicted idx0 k j) :=
  inferInstanceAs (Decidable (_ ∨ _))

/-- An adversarial update sequence that pumps steps into one fixed minute
bucket: a seed call at `t = 1000` ms with sample magnitude `99/199` g, then
pairs of calls inside the same minute window — one at magnitude 1 g (the
high-pass spike exceeds 0.35 g and the wrapping refractory check passes
because the two spike timestamps 2000 and 3000 alternate), one at magnitude
0 g (restoring the low-pass baseline to exactly `99/199`). -/
def pump_state : ℕ → ImuState
  | 0 => imu_update init_engine 1000 (99 / 199)
  | k + 1 =>
    imu_update (imu_update (pump_state k) (2000 + 1000 * (k % 2)) 1) 1500 0

/-- Closed form of `pump_state k`: after `k` pump pairs the single active
bucket holds `k mod 2^16` (uint16 wraparound) while the uint32 running sum
holds `k mod 2^32`. -/
def pump_target (k : ℕ) : ImuState :=
  { s_initialized := true
    s_mag_lp_initialized := true
    s_mag_lp := 99 / 199
    s_mag_hp := if k = 0 then 0 else -(99 / 199)
    s_total_steps := k % U32
    s_last_step_ms := if k = 0 then 0 else 2000 + 1000 * ((k + 1) % 2)
    hist :=
      { s_steps_per_min := Function.update (fun _ => 0) (0 : Fin 60) (k % U16)
        s_curr_min_idx := 0
        s_curr_bucket_start_ms := 1000
        s_steps_last_hour_sum := k % U32 } }

/-- Aligned histogram used to exercise the rotation theorem: 5 steps recorded
in bucket 2, current index 0, window start 1000 ms. -/
def c2_hist : Hist :=
  ⟨Function.update (fun _ => 0) (2 : Fin 60) 5, 0, 1000, 5⟩

/-- Aligned histogram (window start 60000 ms, 5 steps in the current bucket)
used for the clock-wraparound counterexample to the rotation claim. -/
def c2cx_hist : Hist :=
  ⟨Function.update (fun _ => 0) (0 : Fin 60) 5, 0, 60000, 5⟩

/-- Histogram whose catch-up rotation lands `s_curr_bucket_start_ms` exactly
on the sentinel value 0: window start `2^32 - 60000`, 7 steps in bucket 2. -/
def c3cx_hist : Hist :=
  ⟨Function.update (fun _ => 0) (2 : Fin 60) 7, 0, 4294907296, 7⟩

/-- Quiet aligned histogram used as the idempotence witness. -/
def c3w_hist : Hist :=
  ⟨fun _ => 0, 0, 1000, 0⟩

/-- Running engine (baseline settled at 0 g, last step at t = 0) used as the
step-detector witness. -/
def c4w_state : ImuState :=
  ⟨true, true, 0, 0, 0, 0, ⟨fun _ => 0, 0, 500, 0⟩⟩

/-- Engine after a successful init, a quiet sample at 1000 ms and a spike at
2000 ms (one recorded step). -/
def c5_mid : ImuState :=
  imu_update (imu_update init_engine 1000 0) 2000 1

/-- The engine after a failed `imu_init` (WHO_AM_I read 0) that follows the
successful run `c5_mid`. -/
def c5_run : ImuState :=
  (imu_init c5_mid 0).1

/-- Engine whose low-pass baseline has settled at exactly 1.0 g, with no step
recorded yet and the histogram still unaligned. -/
def c6_base : ImuState :=
  ⟨true, true, 1, 0, 0, 0, ⟨fun _ => 0, 0, 0, 0⟩⟩

/-- Scenario B, first sample: magnitude 1.5 g at t = 0 ms. -/
def c6_s1 : ImuState := imu_update c6_base 0 (3 / 2)

/-- Scenario B, second sample: magnitude 1.5 g at t = 100 ms. -/
def c6_s2 : ImuState := imu_update c6_s1 100 (3 / 2)

/-- Scenario B, third sample: magnitude 1.5 g at t = 400 ms. -/
def c6_s3 : ImuState := imu_update c6_s2 400 (3 / 2)

/-- State with 300 steps in the rolling-hour sum, for the classifier witness. -/
def c9_state : ImuState :=
  ⟨false, false, 0, 0, 0, 0, ⟨fun _ => 0, 0, 0, 300⟩⟩

/-- Freshly running engine (baseline settled at 0 g, no step recorded) for the
first-step-suppression witness. -/
def c10_state : ImuState :=
  ⟨true, true, 0, 0, 0, 0, ⟨fun _ => 0, 0, 100, 0⟩⟩

/-- Engine used to exercise the rolling-sum invariant preservation theorem. -/
def c1w_state : ImuState :=
  ⟨true, true, 0, 0, 4, 0, ⟨Function.update (fun _ => 0) (3 : Fin 60) 4, 3, 2000, 4⟩⟩

theorem advance_go_zero (h : Hist) (now : ℕ) : advance_go 0 h now = h := rfl

theorem advance_go_succ (fuel : ℕ) (h : Hist) (now : ℕ) :
    advance_go (fuel + 1) h now =
      if 60000 ≤ (now + U32 - h.s_curr_bucket_start_ms % U32) % U32 then
        advance_go fuel (rotate_bucket h) now
      else h := rfl

theorem advance_sentinel (h : Hist) (now_ms : ℕ)
    (h0 : h.s_curr_bucket_start_ms = 0) :
    imu_history_advance_buckets h now_ms = imu_history_reset (now_ms % U32) := by
  unfold imu_history_advance_buckets
  rw [if_pos h0]

theorem advance_noop (h : Hist) (now_ms : ℕ)
    (h0 : h.s_curr_bucket_start_ms ≠ 0)
    (hd : (now_ms % U32 + U32 - h.s_curr_bucket_start_ms % U32) % U32 < 60000) :
    imu_history_advance_buckets h now_ms = h := by
  unfold imu_history_advance_buckets
  rw [if_neg h0, Nat.div_eq_of_lt hd, advance_go_succ, if_neg (by omega)]

theorem imu_update_not_init (s : ImuState) (now_ms : ℕ) (mag : ℚ)
    (hi : s.s_initialized = false) : imu_update s now_ms mag = s := by
  unfold imu_update
  rw [if_pos hi]

theorem imu_update_step (s : ImuState) (now_ms : ℕ) (mag : ℚ)
    (hi : s.s_initialized = true)
    (hq : IMU_STEP_THRESHOLD_G < mag - lpOf s mag)
    (ht : IMU_STEP_MIN_INTERVAL_MS < dtOf s now_ms) :
    imu_update s now_ms mag =
      { s_initialized := true
        s_mag_lp_initialized := true
        s_mag_lp := lpOf s mag
        s_mag_hp := mag - lpOf s mag
        s_total_steps := (s.s_total_steps + 1) % U32
        s_last_step_ms := now_ms % U32
        hist :=
          { s_steps_per_min :=
              Function.update (imu_history_advance_buckets s.hist now_ms).s_steps_per_min
                (imu_history_advance_buckets s.hist now_ms).s_curr_min_idx
                (((imu_history_advance_buckets s.hist now_ms).s_steps_per_min
                    (imu_history_advance_buckets s.hist now_ms).s_curr_min_idx + 1) % U16)
            s_curr_min_idx := (imu_history_advance_buckets s.hist now_ms).s_curr_min_idx
            s_curr_bucket_start_ms :=
              (imu_history_advance_buckets s.hist now_ms).s_curr_bucket_start_ms
            s_steps_last_hour_sum :=
              ((imu_history_advance_buckets s.hist now_ms).s_steps_last_hour_sum + 1) % U32 } } := by
  unfold imu_update
  rw [if_neg (by rw [hi]; exact fun hc => Bool.noConfusion hc)]
  simp only [hi]
  rw [if_pos hq, if_pos ht]

theorem imu_update_nostep (s : ImuState) (now_ms : ℕ) (mag : ℚ)
    (hi : s.s_initialized = true)
    (hnq : ¬(IMU_STEP_THRESHOLD_G < mag - lpOf s mag ∧
             IMU_STEP_MIN_INTERVAL_MS < dtOf s now_ms)) :
    imu_update s now_ms mag =
      { s with
        hist := imu_history_advance_buckets s.hist now_ms
        s_mag_lp_initialized := true
        s_mag_lp := lpOf s mag
        s_mag_hp := mag - lpOf s mag } := by
  unfold imu_update
  rw [if_neg (by rw [hi]; exact fun hc => Bool.noConfusion hc)]
  by_cases h1 : IMU_STEP_THRESHOLD_G < mag - lpOf s mag
  · have h2 : ¬ IMU_STEP_MIN_INTERVAL_MS < dtOf s now_ms := fun h => hnq ⟨h1, h⟩
    simp only []
    rw [if_pos h1, if_neg h2]
  · simp only []
    rw [if_neg h1]

theorem c6_s1_eq :
    c6_s1 = ⟨true, true, 201 / 200, 99 / 200, 0, 0, ⟨fun _ => 0, 0, 0, 0⟩⟩ := by
  unfold c6_s1
  rw [imu_update_nostep c6_base 0 (3 / 2) rfl (fun hc => absurd hc.2 (by decide))]
  rw [show imu_history_advance_buckets c6_base.hist 0 = (⟨fun _ => 0, 0, 0, 0⟩ : Hist)
        from by decide]
  simp only [c6_base, lpOf]
  norm_num

theorem c6_s2_eq :
    c6_s2 = ⟨true, true, 20199 / 20000, 9801 / 20000, 0, 0, ⟨fun _ => 0, 0, 100, 0⟩⟩ := by
  unfold c6_s2
  rw [c6_s1_eq]
  rw [imu_update_nostep _ 100 (3 / 2) rfl (fun hc => absurd hc.2 (by decide))]
  rw [show imu_history_advance_buckets (⟨fun _ => 0, 0, 0, 0⟩ : Hist) 100 =
        (⟨fun _ => 0, 0, 100, 0⟩ : Hist) from by decide]
  simp only [lpOf]
  norm_num

theorem c6_s3_eq :
    c6_s3 = ⟨true, true, 2029701 / 2000000, 970299 / 2000000, 1, 400,
      ⟨Function.update (fun _ => 0) (0 : Fin 60) 1, 0, 100, 1⟩⟩ := by
  unfold c6_s3
  rw [c6_s2_eq]
  rw [imu_update_step _ 400 (3 / 2) rfl (by simp only [lpOf]; norm_num) (by decide)]
  rw [show imu_history_advance_buckets (⟨fun _ => 0, 0, 100, 0⟩ : Hist) 400 =
        (⟨fun _ => 0, 0, 100, 0⟩ : Hist) from by decide]
  simp only [lpOf]
  norm_num

theorem init_engine_eq :
    init_engine = ⟨true, false, 0, 0, 0, 0, ⟨fun _ => 0, 0, 0, 0⟩⟩ := rfl

/-- Claim C6 (counterexample): with the baseline settled at 1.0 g and no step
recorded, the 1.5 g sample at t = 0 crosses the 0.35 g threshold but records
no step, because `dt = 0 - 0 = 0` fails the refractory comparison. -/
theorem imu_C6_counterexample :
    c6_s1.s_total_steps = 0 ∧ IMU_STEP_THRESHOLD_G < c6_s1.s_mag_hp := by
  rw [c6_s1_eq]
  exact ⟨rfl, by norm_num⟩

/-- Claim C6 (amended): the 1.5 g sample at t = 0 records no step (suppressed
by the refractory check against the initial `s_last_step_ms = 0`), the sample
at t = 100 records none, and the sample at t = 400 records the first step, so
`total_steps = 1` (not 2) after the third sample. -/
theorem imu_C6_amended :
    c6_s1.s_total_steps = 0 ∧ c6_s2.s_total_steps = 0 ∧ c6_s3.s_total_steps = 1 := by
  rw [c6_s1_eq, c6_s2_eq, c6_s3_eq]
  exact ⟨rfl, rfl, rfl⟩

/-- Claim C5 (amended): `imu_update` is a no-op whenever the engine is
uninitialized; at boot every query returns zero/false; a failed `imu_init`
(WHO_AM_I mismatch) clears only `s_initialized` and returns false, so queries
after a failed init that follows a successful run return the stale values, not
zero. -/
theorem imu_C5_uninitialized :
    (∀ (s : ImuState) (now_ms : ℕ) (mag : ℚ),
        s.s_initialized = false → imu_update s now_ms mag = s) ∧
    (imu_get_total_steps boot_state = 0 ∧ imu_get_steps_last_hour boot_state = 0 ∧
      imu_step_goal_reached boot_state = false ∧ imu_get_activity_level boot_state = 0) ∧
    (∀ (s : ImuState) (whoami : ℕ), whoami ≠ LSM6DS3_WHO_AM_I_VALUE →
        imu_init s whoami = ({ s with s_initialized := false }, false)) := by
  refine ⟨imu_update_not_init, ⟨rfl, rfl, rfl, rfl⟩, ?_⟩
  intro s w hw
  unfold imu_init
  rw [if_pos hw]

theorem c5_e1_eq :
    imu_update init_engine 1000 0 = ⟨true, true, 0, 0, 0, 0, ⟨fun _ => 0, 0, 1000, 0⟩⟩ := by
  rw [init_engine_eq]
  rw [imu_update_nostep _ 1000 0 rfl (fun hc => absurd hc.1 (by simp only [lpOf]; norm_num))]
  rw [show imu_history_advance_buckets (⟨fun _ => 0, 0, 0, 0⟩ : Hist) 1000 =
        (⟨fun _ => 0, 0, 1000, 0⟩ : Hist) from by decide]
  simp only [lpOf]
  norm_num

theorem c5_mid_eq :
    c5_mid = ⟨true, true, 1 / 100, 99 / 100, 1, 2000,
      ⟨Function.update (fun _ => 0) (0 : Fin 60) 1, 0, 1000, 1⟩⟩ := by
  unfold c5_mid
  rw [c5_e1_eq]
  rw [imu_update_step _ 2000 1 rfl (by simp only [lpOf]; norm_num) (by decide)]
  rw [show imu_history_advance_buckets (⟨fun _ => 0, 0, 1000, 0⟩ : Hist) 2000 =
        (⟨fun _ => 0, 0, 1000, 0⟩ : Hist) from by decide]
  simp only [lpOf]
  norm_num

/-- Claim C5 (counterexample): after a successful init, one recorded step, and
then a failed `imu_init` (WHO_AM_I read 0), the engine is uninitialized yet
`imu_get_total_steps` still returns 1, not 0. -/
theorem imu_C5_counterexample :
    c5_run.s_initialized = false ∧ imu_get_total_steps c5_run = 1 := by
  have h : c5_run = ⟨false, true, 1 / 100, 99 / 100, 1, 2000,
      ⟨Function.update (fun _ => 0) (0 : Fin 60) 1, 0, 1000, 1⟩⟩ := by
    unfold c5_run
    rw [c5_mid_eq]
    rfl
  rw [h]
  exact ⟨rfl, rfl⟩

theorem imu_C5_witness : imu_update boot_state 7 0 = boot_state :=
  imu_C5_uninitialized.1 boot_state 7 0 rfl

/-- Claim C7 (amended): when `s_curr_bucket_start_ms` holds the sentinel 0,
`advance` resets the whole history to `now_ms` (no stale bucket data
survives); after the first `update(t0)` the histogram is aligned to `t0`
(`bucket_start = t0`, index 0) and for `t0 mod 2^32 ≠ 0` the stored bucket
start is nonzero, so the next call does not take the sentinel branch.  For
`t0 = 0` the sentinel is re-armed (see the counterexample). -/
theorem imu_C7_cold_start :
    (∀ (h : Hist) (now_ms : ℕ), h.s_curr_bucket_start_ms = 0 →
        imu_history_advance_buckets h now_ms = imu_history_reset (now_ms % U32)) ∧
    (∀ (e : ImuState) (t0 : ℕ) (mag : ℚ),
        e.s_initialized = true → e.hist.s_curr_bucket_start_ms = 0 →
        (imu_update e t0 mag).hist.s_curr_bucket_start_ms = t0 % U32 ∧
        (imu_update e t0 mag).hist.s_curr_min_idx = 0) ∧
    (∀ (t0 : ℕ) (mag : ℚ), t0 % U32 ≠ 0 →
        (imu_update init_engine t0 mag).hist.s_curr_bucket_start_ms ≠ 0) := by
  have hmain : ∀ (e : ImuState) (t0 : ℕ) (mag : ℚ),
      e.s_initialized = true → e.hist.s_curr_bucket_start_ms = 0 →
      (imu_update e t0 mag).hist.s_curr_bucket_start_ms = t0 % U32 ∧
      (imu_update e t0 mag).hist.s_curr_min_idx = 0 := by
    intro e t0 mag hi h0
    by_cases hc : IMU_STEP_THRESHOLD_G < mag - lpOf e mag ∧
        IMU_STEP_MIN_INTERVAL_MS < dtOf e t0
    · rw [imu_update_step e t0 mag hi hc.1 hc.2, advance_sentinel e.hist t0 h0]
      exact ⟨by simp only [imu_history_reset, U32]; omega, rfl⟩
    · rw [imu_update_nostep e t0 mag hi hc, advance_sentinel e.hist t0 h0]
      exact ⟨by simp only [imu_history_reset, U32]; omega, rfl⟩
  refine ⟨fun h now_ms h0 => advance_sentinel h now_ms h0, hmain, ?_⟩
  intro t0 mag ht
  rw [(hmain init_engine t0 mag rfl rfl).1]
  exact ht

theorem c7_run_eq :
    imu_update init_engine 0 0 = ⟨true, true, 0, 0, 0, 0, ⟨fun _ => 0, 0, 0, 0⟩⟩ := by
  rw [init_engine_eq]
  rw [imu_update_nostep _ 0 0 rfl (fun hc => absurd hc.1 (by simp only [lpOf]; norm_num))]
  rw [show imu_history_advance_buckets (⟨fun _ => 0, 0, 0, 0⟩ : Hist) 0 =
        (⟨fun _ => 0, 0, 0, 0⟩ : Hist) from by decide]
  simp only [lpOf]
  norm_num

/-- Claim C7 (counterexample): after the very first `update` at `t0 = 0` the
stored bucket start is again the sentinel 0, so the next call does take the
sentinel branch: `advance` at `now = 1` resets the histogram (changing
`bucket_start` to 1) instead of being the no-op an aligned histogram would
see. -/
theorem imu_C7_counterexample :
    (imu_update init_engine 0 0).hist.s_curr_bucket_start_ms = 0 ∧
    imu_history_advance_buckets (imu_update init_engine 0 0).hist 1 ≠
      (imu_update init_engine 0 0).hist := by
  rw [c7_run_eq]
  exact ⟨rfl, by decide⟩

theorem imu_C7_witness :
    (imu_update init_engine 5 0).hist.s_curr_bucket_start_ms = 5 % U32 ∧
    (imu_update init_engine 5 0).hist.s_curr_min_idx = 0 :=
  imu_C7_cold_start.2.1 init_engine 5 0 rfl rfl

/-- Claim C8: on the first sample after (re)initialization the filter seeds
`baseline = magnitude` and outputs `high_pass = 0`; on later samples it moves
the baseline by `0.01 * (magnitude - baseline)` and outputs
`high_pass = magnitude - new_baseline`; the initialized flag is set in both
cases. -/
theorem imu_C8_filter (s : ImuState) (now_ms : ℕ) (mag : ℚ)
    (hi : s.s_initialized = true) :
    (s.s_mag_lp_initialized = false →
      (imu_update s now_ms mag).s_mag_lp = mag ∧
      (imu_update s now_ms mag).s_mag_hp = 0 ∧
      (imu_update s now_ms mag).s_mag_lp_initialized = true) ∧
    (s.s_mag_lp_initialized = true →
      (imu_update s now_ms mag).s_mag_lp =
        s.s_mag_lp + IMU_MAG_LP_ALPHA * (mag - s.s_mag_lp) ∧
      (imu_update s now_ms mag).s_mag_hp =
        mag - (s.s_mag_lp + IMU_MAG_LP_ALPHA * (mag - s.s_mag_lp)) ∧
      (imu_update s now_ms mag).s_mag_lp_initialized = true) := by
  have key : (imu_update s now_ms mag).s_mag_lp = lpOf s mag ∧
      (imu_update s now_ms mag).s_mag_hp = mag - lpOf s mag ∧
      (imu_update s now_ms mag).s_mag_lp_initialized = true := by
    by_cases hc : IMU_STEP_THRESHOLD_G < mag - lpOf s mag ∧
        IMU_STEP_MIN_INTERVAL_MS < dtOf s now_ms
    · rw [imu_update_step s now_ms mag hi hc.1 hc.2]
      exact ⟨rfl, rfl, rfl⟩
    · rw [imu_update_nostep s now_ms mag hi hc]
      exact ⟨rfl, rfl, rfl⟩
  constructor
  · intro hf
    have hl : lpOf s mag = mag := by unfold lpOf; rw [if_pos hf]
    exact ⟨by rw [key.1, hl], by rw [key.2.1, hl]; ring, key.2.2⟩
  · intro hf
    have hl : lpOf s mag = s.s_mag_lp + IMU_MAG_LP_ALPHA * (mag - s.s_mag_lp) := by
      unfold lpOf
      rw [if_neg (by rw [hf]; exact fun hc => Bool.noConfusion hc)]
    exact ⟨by rw [key.1, hl], by rw [key.2.1, hl], key.2.2⟩

theorem imu_C8_witness :
    (imu_update init_engine 3 (3 / 2)).s_mag_lp = 3 / 2 ∧
    (imu_update init_engine 3 (3 / 2)).s_mag_hp = 0 ∧
    (imu_update init_engine 3 (3 / 2)).s_mag_lp_initialized = true :=
  (imu_C8_filter init_engine 3 (3 / 2) rfl).1 rfl

/-- Claim C9: the activity level is the stated pure threshold function of the
(clamped) rolling-hour count, and the goal flag holds exactly when that count
is at least 250; both are pure query functions of the state. -/
theorem imu_C9_classifier (e : ImuState) :
    (imu_get_steps_last_hour e < 50 → imu_get_activity_level e = 0) ∧
    (50 ≤ imu_get_steps_last_hour e → imu_get_steps_last_hour e < 250 →
      imu_get_activity_level e = 1) ∧
    (250 ≤ imu_get_steps_last_hour e → imu_get_steps_last_hour e < 500 →
      imu_get_activity_level e = 2) ∧
    (500 ≤ imu_get_steps_last_hour e → imu_get_activity_level e = 3) ∧
    (imu_step_goal_reached e = true ↔ 250 ≤ imu_get_steps_last_hour e) := by
  simp only [imu_get_activity_level, imu_step_goal_reached, IMU_STEP_GOAL_PER_HOUR]
  refine ⟨fun h1 => ?_, fun h1 h2 => ?_, fun h1 h2 => ?_, fun h1 => ?_, ?_⟩
  · rw [if_pos h1]
  · rw [if_neg (by omega), if_pos h2]
  · rw [if_neg (by omega), if_neg (by omega), if_pos (by omega)]
  · rw [if_neg (by omega), if_neg (by omega), if_neg (by omega)]
  · by_cases h : 250 ≤ imu_get_steps_last_hour e
    · rw [if_pos h]
      simp [h]
    · rw [if_neg h]
      simp [h]

theorem imu_C9_witness :
    imu_get_activity_level c9_state = 2 ∧ imu_step_goal_reached c9_state = true :=
  ⟨(imu_C9_classifier c9_state).2.2.1 (by decide) (by decide),
   (imu_C9_classifier c9_state).2.2.2.2.mpr (by decide)⟩

/-- Claim C10: a successful `imu_init` leaves `s_last_step_ms = 0`, and while
`s_last_step_ms = 0` any tick whose high-pass exceeds the 0.35 g threshold at
a timestamp `now_ms ≤ 350` records no step: `dt = now_ms - 0 ≤ 350` fails the
strict refractory comparison, so the first detectable footstrike inside the
first 350 ms of the clock is silently suppressed. -/
theorem imu_C10_first_step_suppressed :
    (imu_init boot_state LSM6DS3_WHO_AM_I_VALUE).1.s_last_step_ms = 0 ∧
    ∀ (s : ImuState) (now_ms : ℕ) (mag : ℚ),
      s.s_last_step_ms = 0 → s.s_total_steps = 0 → now_ms ≤ 350 →
      IMU_STEP_THRESHOLD_G < mag - lpOf s mag →
      (imu_update s now_ms mag).s_total_steps = 0 ∧
      (imu_update s now_ms mag).s_last_step_ms = 0 := by
  refine ⟨rfl, ?_⟩
  intro s now_ms mag hl ht hn hq
  cases hi : s.s_initialized with
  | false =>
    rw [imu_update_not_init s now_ms mag hi]
    exact ⟨ht, hl⟩
  | true =>
    have hdt : ¬ IMU_STEP_MIN_INTERVAL_MS < dtOf s now_ms := by
      simp only [dtOf, hl, IMU_STEP_MIN_INTERVAL_MS, U32]
      omega
    rw [imu_update_nostep s now_ms mag hi (fun hc => hdt hc.2)]
    exact ⟨ht, hl⟩

theorem imu_C10_witness :
    (imu_update c10_state 300 1).s_total_steps = 0 ∧
    (imu_update c10_state 300 1).s_last_step_ms = 0 :=
  imu_C10_first_step_suppressed.2 c10_state 300 1 rfl rfl (by omega)
    (by simp only [lpOf, c10_state]; norm_num)

theorem advance_eq_go (h : Hist) (now_ms : ℕ)
    (h0 : h.s_curr_bucket_start_ms ≠ 0) :
    imu_history_advance_buckets h now_ms =
      advance_go ((now_ms % U32 + U32 - h.s_curr_bucket_start_ms % U32) % U32 / 60000 + 1)
        h (now_ms % U32) := by
  unfold imu_history_advance_buckets
  rw [if_neg h0]

theorem advance_go_post (now : ℕ) :
    ∀ (fuel : ℕ) (h : Hist),
      (now + U32 - h.s_curr_bucket_start_ms % U32) % U32 / 60000 < fuel →
      (now + U32 - (advance_go fuel h now).s_curr_bucket_start_ms % U32) % U32 < 60000 := by
  intro fuel
  induction fuel with
  | zero => intro h hf; omega
  | succ f ih =>
    intro h hf
    rw [advance_go_succ]
    by_cases hc : 60000 ≤ (now + U32 - h.s_curr_bucket_start_ms % U32) % U32
    · rw [if_pos hc]
      apply ih
      simp only [rotate_bucket, U32] at hc hf ⊢
      omega
    · rw [if_neg hc]
      omega

/-- Claim C3 (amended): `advance(now_ms)` run twice with the same `now_ms` is
a no-op the second time, provided the first call does not leave the sentinel
value 0 in `s_curr_bucket_start_ms` (which can only happen when a catch-up
rotation wraps the uint32 bucket start exactly onto 0); when the state was
already in the sentinel state the double call is also idempotent. -/
theorem imu_C3_advance_idempotent (h : Hist) (now_ms : ℕ)
    (hs : (imu_history_advance_buckets h now_ms).s_curr_bucket_start_ms ≠ 0 ∨
          h.s_curr_bucket_start_ms = 0) :
    imu_history_advance_buckets (imu_history_advance_buckets h now_ms) now_ms =
      imu_history_advance_buckets h now_ms := by
  by_cases h0 : h.s_curr_bucket_start_ms = 0
  · rw [advance_sentinel h now_ms h0]
    by_cases hz : now_ms % U32 = 0
    · rw [advance_sentinel _ now_ms (by simp only [imu_history_reset, U32] at hz ⊢; omega)]
    · rw [advance_noop _ now_ms
        (by simp only [imu_history_reset, U32] at hz ⊢; omega)
        (by simp only [imu_history_reset, U32]; omega)]
  · rcases hs with hs | hs
    · rw [advance_eq_go h now_ms h0] at hs ⊢
      exact advance_noop _ now_ms hs
        (advance_go_post (now_ms % U32) _ h (Nat.lt_succ_self _))
    · exact absurd hs h0

/-- Claim C3 (counterexample): starting from bucket start `2^32 - 60000`
(nonzero, 7 steps in bucket 2), `advance(0)` rotates once and leaves bucket
start exactly 0; the second `advance(0)` then takes the sentinel branch and
resets the histogram, so it is not a no-op. -/
theorem imu_C3_counterexample :
    imu_history_advance_buckets (imu_history_advance_buckets c3cx_hist 0) 0 ≠
      imu_history_advance_buckets c3cx_hist 0 := by decide

theorem imu_C3_witness :
    imu_history_advance_buckets (imu_history_advance_buckets c3w_hist 1500) 1500 =
      imu_history_advance_buckets c3w_hist 1500 :=
  imu_C3_advance_idempotent c3w_hist 1500 (Or.inl (by decide))

/-- Claim C4: in the running state a step is recorded exactly when the
high-pass exceeds 0.35 g and the wrapping uint32 difference
`now_ms - s_last_step_ms` exceeds 350; a qualifying tick sets
`s_last_step_ms = now_ms` and increments the total, the current (post-advance)
bucket and the running sum each by exactly 1, leaving other buckets untouched;
a non-qualifying tick leaves the step-counting state exactly as the bucket
advance left it.  Consequently, after a registered step at `t1`, a second
qualifying crossing at `t2` within 350 ms records nothing, while one more than
350 ms later records a second step. -/
theorem imu_C4_detector :
    (∀ (s : ImuState) (now_ms : ℕ) (mag : ℚ), s.s_initialized = true →
      (IMU_STEP_THRESHOLD_G < mag - lpOf s mag →
       IMU_STEP_MIN_INTERVAL_MS < dtOf s now_ms →
        (imu_update s now_ms mag).s_last_step_ms = now_ms % U32 ∧
        (imu_update s now_ms mag).s_total_steps = (s.s_total_steps + 1) % U32 ∧
        (imu_update s now_ms mag).hist.s_steps_per_min
            (imu_history_advance_buckets s.hist now_ms).s_curr_min_idx =
          ((imu_history_advance_buckets s.hist now_ms).s_steps_per_min
              (imu_history_advance_buckets s.hist now_ms).s_curr_min_idx + 1) % U16 ∧
        (imu_update s now_ms mag).hist.s_steps_last_hour_sum =
          ((imu_history_advance_buckets s.hist now_ms).s_steps_last_hour_sum + 1) % U32 ∧
        (∀ j, j ≠ (imu_history_advance_buckets s.hist now_ms).s_curr_min_idx →
          (imu_update s now_ms mag).hist.s_steps_per_min j =
            (imu_history_advance_buckets s.hist now_ms).s_steps_per_min j)) ∧
      (¬(IMU_STEP_THRESHOLD_G < mag - lpOf s mag ∧
         IMU_STEP_MIN_INTERVAL_MS < dtOf s now_ms) →
        (imu_update s now_ms mag).s_last_step_ms = s.s_last_step_ms ∧
        (imu_update s now_ms mag).s_total_steps = s.s_total_steps ∧
        (imu_update s now_ms mag).hist = imu_history_advance_buckets s.hist now_ms)) ∧
    (∀ (s : ImuState) (t1 t2 : ℕ) (m1 m2 : ℚ),
      s.s_initialized = true →
      IMU_STEP_THRESHOLD_G < m1 - lpOf s m1 →
      IMU_STEP_MIN_INTERVAL_MS < dtOf s t1 →
      IMU_STEP_THRESHOLD_G < m2 - lpOf (imu_update s t1 m1) m2 →
      ((t2 % U32 + U32 - t1 % U32) % U32 ≤ IMU_STEP_MIN_INTERVAL_MS →
        (imu_update (imu_update s t1 m1) t2 m2).s_total_steps =
          (s.s_total_steps + 1) % U32) ∧
      (IMU_STEP_MIN_INTERVAL_MS < (t2 % U32 + U32 - t1 % U32) % U32 →
        (imu_update (imu_update s t1 m1) t2 m2).s_total_steps =
          (s.s_total_steps + 2) % U32)) := by
  constructor
  · intro s now_ms mag hi
    constructor
    · intro hq ht
      rw [imu_update_step s now_ms mag hi hq ht]
      refine ⟨rfl, rfl, Function.update_same _ _ _, rfl, ?_⟩
      intro j hj
      exact Function.update_noteq hj _ _
    · intro hn
      rw [imu_update_nostep s now_ms mag hi hn]
      exact ⟨rfl, rfl, rfl⟩
  · intro s t1 t2 m1 m2 hi hq1 ht1 hq2
    have hs1 := imu_update_step s t1 m1 hi hq1 ht1
    constructor
    · intro hsep
      have hnd : ¬ IMU_STEP_MIN_INTERVAL_MS < dtOf (imu_update s t1 m1) t2 := by
        rw [hs1]
        simp only [dtOf, U32, IMU_STEP_MIN_INTERVAL_MS] at hsep ⊢
        omega
      rw [imu_update_nostep _ t2 m2 (by rw [hs1]) (fun hc => hnd hc.2), hs1]
    · intro hsep
      have hd2 : IMU_STEP_MIN_INTERVAL_MS < dtOf (imu_update s t1 m1) t2 := by
        rw [hs1]
        simp only [dtOf, U32, IMU_STEP_MIN_INTERVAL_MS] at hsep ⊢
        omega
      rw [imu_update_step _ t2 m2 (by rw [hs1]) hq2 hd2, hs1]
      simp only [U32]
      omega

theorem imu_C4_witness :
    (imu_update c4w_state 1000 1).s_last_step_ms = 1000 % U32 ∧
    (imu_update c4w_state 1000 1).s_total_steps = (c4w_state.s_total_steps + 1) % U32 := by
  have h := (imu_C4_detector.1 c4w_state 1000 1 rfl).1
    (by simp only [lpOf, c4w_state]; norm_num) (by decide)
  exact ⟨h.1, h.2.1⟩

theorem hist_inv_reset (now_ms : ℕ) : hist_inv (imu_history_reset now_ms) := by
  unfold hist_inv imu_history_reset
  simp

theorem rotate_bucket_inv (h : Hist) (hinv : hist_inv h)
    (hs : h.s_steps_last_hour_sum < U32) :
    hist_inv (rotate_bucket h) ∧
    (rotate_bucket h).s_steps_last_hour_sum ≤ h.s_steps_last_hour_sum := by
  have hb : h.s_steps_per_min (h.s_curr_min_idx + 1) ≤ h.s_steps_last_hour_sum := by
    rw [hinv]
    exact Finset.single_le_sum (fun i _ => Nat.zero_le _) (Finset.mem_univ _)
  have he := Finset.sum_erase_add Finset.univ h.s_steps_per_min
    (Finset.mem_univ (h.s_curr_min_idx + 1))
  rw [Finset.erase_eq] at he
  unfold hist_inv at hinv ⊢
  unfold rotate_bucket
  simp only []
  rw [Finset.sum_update_of_mem (Finset.mem_univ _)]
  simp only [U32] at *
  constructor
  · omega
  · omega

theorem advance_go_inv (now : ℕ) :
    ∀ (fuel : ℕ) (h : Hist), hist_inv h → h.s_steps_last_hour_sum < U32 →
      hist_inv (advance_go fuel h now) ∧
      (advance_go fuel h now).s_steps_last_hour_sum ≤ h.s_steps_last_hour_sum := by
  intro fuel
  induction fuel with
  | zero => intro h hi hs; exact ⟨hi, le_refl _⟩
  | succ f ih =>
    intro h hi hs
    rw [advance_go_succ]
    by_cases hc : 60000 ≤ (now + U32 - h.s_curr_bucket_start_ms % U32) % U32
    · rw [if_pos hc]
      obtain ⟨h1, h2⟩ := rotate_bucket_inv h hi hs
      obtain ⟨h3, h4⟩ := ih (rotate_bucket h) h1 (lt_of_le_of_lt h2 hs)
      exact ⟨h3, le_trans h4 h2⟩
    · rw [if_neg hc]
      exact ⟨hi, le_refl _⟩

theorem advance_inv (h : Hist) (now_ms : ℕ) (hi : hist_inv h)
    (hs : h.s_steps_last_hour_sum < U32) :
    hist_inv (imu_history_advance_buckets h now_ms) ∧
    (imu_history_advance_buckets h now_ms).s_steps_last_hour_sum ≤
      h.s_steps_last_hour_sum := by
  by_cases h0 : h.s_curr_bucket_start_ms = 0
  · rw [advance_sentinel h now_ms h0]
    exact ⟨hist_inv_reset _, Nat.zero_le _⟩
  · rw [advance_eq_go h now_ms h0]
    exact advance_go_inv _ _ h hi hs

/-- Claim C1 (amended): history reset establishes the invariant
`running_sum = Σ buckets`, bucket advancement preserves it, and `imu_update`
preserves it provided the step increment (if any) does not overflow the uint16
bucket (post-advance bucket + 1 < 2^16) and the uint32 running sum does not
overflow; with 2^16 or more steps pumped into a single bucket between clears
the uint16 bucket wraps and the equality fails (see the counterexample). -/
theorem imu_C1_invariant :
    (∀ now_ms : ℕ, hist_inv (imu_history_reset now_ms)) ∧
    (∀ (h : Hist) (now_ms : ℕ), hist_inv h → h.s_steps_last_hour_sum < U32 →
        hist_inv (imu_history_advance_buckets h now_ms)) ∧
    (∀ (s : ImuState) (now_ms : ℕ) (mag : ℚ), hist_inv s.hist →
        s.hist.s_steps_last_hour_sum + 1 < U32 →
        (imu_history_advance_buckets s.hist now_ms).s_steps_per_min
            (imu_history_advance_buckets s.hist now_ms).s_curr_min_idx + 1 < U16 →
        hist_inv (imu_update s now_ms mag).hist) := by
  refine ⟨hist_inv_reset, fun h now_ms hi hs => (advance_inv h now_ms hi hs).1, ?_⟩
  intro s now_ms mag hi hs hb
  cases hini : s.s_initialized with
  | false =>
    rw [imu_update_not_init s now_ms mag hini]
    exact hi
  | true =>
    obtain ⟨hadv, hle⟩ := advance_inv s.hist now_ms hi (by omega)
    by_cases hc : IMU_STEP_THRESHOLD_G < mag - lpOf s mag ∧
        IMU_STEP_MIN_INTERVAL_MS < dtOf s now_ms
    · rw [imu_update_step s now_ms mag hini hc.1 hc.2]
      have he := Finset.sum_erase_add Finset.univ
        (imu_history_advance_buckets s.hist now_ms).s_steps_per_min
        (Finset.mem_univ (imu_history_advance_buckets s.hist now_ms).s_curr_min_idx)
      rw [Finset.erase_eq] at he
      unfold hist_inv at hadv ⊢
      rw [Finset.sum_update_of_mem (Finset.mem_univ _)]
      simp only [U32, U16] at *
      omega
    · rw [imu_update_nostep s now_ms mag hini hc]
      exact hadv

theorem imu_C1_witness : hist_inv (imu_update c1w_state 2500 0).hist :=
  imu_C1_invariant.2.2 c1w_state 2500 0 (by decide) (by decide) (by decide)


theorem pump_target_zero : pump_state 0 = pump_target 0 := by
  show imu_update init_engine 1000 (99 / 199) = _
  rw [init_engine_eq]
  rw [imu_update_nostep _ 1000 (99 / 199) rfl
    (fun hc => absurd hc.1 (by simp only [lpOf]; norm_num))]
  rw [show imu_history_advance_buckets (⟨fun _ => 0, 0, 0, 0⟩ : Hist) 1000 =
        (⟨fun _ => 0, 0, 1000, 0⟩ : Hist) from by decide]
  simp only [lpOf, pump_target]
  norm_num

theorem pump_step_A (n : ℕ) :
    imu_update (pump_target n) (2000 + 1000 * (n % 2)) 1 =
      ⟨true, true, 100 / 199, 99 / 199, (n + 1) % U32, 2000 + 1000 * (n % 2),
        ⟨Function.update (fun _ => 0) (0 : Fin 60) ((n + 1) % U16), 0, 1000,
          (n + 1) % U32⟩⟩ := by
  have hnow : (2000 + 1000 * (n % 2)) % U32 = 2000 + 1000 * (n % 2) := by
    simp only [U32]; omega
  have hq1 : IMU_STEP_THRESHOLD_G < 1 - lpOf (pump_target n) 1 := by
    simp only [lpOf, pump_target]
    norm_num
  have ht1 : IMU_STEP_MIN_INTERVAL_MS < dtOf (pump_target n) (2000 + 1000 * (n % 2)) := by
    by_cases hn : n = 0
    · subst hn; decide
    · rcases Nat.mod_two_eq_zero_or_one n with h2 | h2
      · have h3 : (n + 1) % 2 = 1 := by omega
        simp only [dtOf, pump_target, if_neg hn, h2, h3]
        decide
      · have h3 : (n + 1) % 2 = 0 := by omega
        simp only [dtOf, pump_target, if_neg hn, h2, h3]
        decide
  rw [imu_update_step (pump_target n) _ 1 rfl hq1 ht1]
  rw [advance_noop (pump_target n).hist (2000 + 1000 * (n % 2))
    (by simp only [pump_target]; omega)
    (by rcases Nat.mod_two_eq_zero_or_one n with h2 | h2 <;>
          simp only [pump_target, h2] <;> decide)]
  simp only [pump_target, lpOf, hnow]
  norm_num [ImuState.mk.injEq, Hist.mk.injEq, Function.update_idem]

theorem pump_step_B (n : ℕ) :
    imu_update (⟨true, true, 100 / 199, 99 / 199, (n + 1) % U32, 2000 + 1000 * (n % 2),
        ⟨Function.update (fun _ => 0) (0 : Fin 60) ((n + 1) % U16), 0, 1000,
          (n + 1) % U32⟩⟩ : ImuState) 1500 0 = pump_target (n + 1) := by
  rw [imu_update_nostep _ 1500 0 rfl
    (fun hc => absurd hc.1 (by simp only [lpOf]; norm_num))]
  rw [advance_noop (⟨Function.update (fun _ => 0) (0 : Fin 60) ((n + 1) % U16), 0, 1000,
        (n + 1) % U32⟩ : Hist) 1500 (by show (1000 : ℕ) ≠ 0; decide)
      (by show (1500 % U32 + U32 - 1000 % U32) % U32 < 60000; decide)]
  simp only [pump_target, lpOf, if_neg (Nat.succ_ne_zero n)]
  norm_num [ImuState.mk.injEq, Hist.mk.injEq]
  omega

theorem pump_state_eq : ∀ k, pump_state k = pump_target k := by
  intro k
  induction k with
  | zero => exact pump_target_zero
  | succ n ih =>
    show imu_update (imu_update (pump_state n) (2000 + 1000 * (n % 2)) 1) 1500 0 =
      pump_target (n + 1)
    rw [ih, pump_step_A n, pump_step_B n]

/-- Claim C1 (counterexample): the state reached from a successful init by the
explicit pump sequence of 2^16 step-recording update pairs violates the
invariant: the uint16 bucket has wrapped back to 0 while the uint32 running
sum holds 65536. -/
theorem imu_C1_counterexample : ¬ hist_inv (pump_state 65536).hist := by
  rw [pump_state_eq 65536]
  unfold hist_inv pump_target
  simp only []
  rw [show (65536 : ℕ) % U16 = 0 from rfl]
  rw [Function.update_eq_self (0 : Fin 60) (fun _ => (0 : ℕ))]
  simp

theorem advance_go_rotations :
    ∀ (k : ℕ) (h : Hist) (now d : ℕ), d < 60000 →
      (now + U32 - h.s_curr_bucket_start_ms % U32) % U32 = d + k * 60000 →
      advance_go (k + 1) h now = rotate_bucket^[k] h := by
  intro k
  induction k with
  | zero =>
    intro h now d hd hD
    rw [advance_go_succ, if_neg (by omega)]
    rfl
  | succ m ih =>
    intro h now d hd hD
    rw [advance_go_succ, if_pos (by omega)]
    rw [Function.iterate_succ_apply]
    apply ih (rotate_bucket h) now d hd
    simp only [rotate_bucket, U32] at hD ⊢
    omega

theorem rotate_iter_idx (h : Hist) :
    ∀ k, (rotate_bucket^[k] h).s_curr_min_idx.val =
      (h.s_curr_min_idx.val + k) % 60 := by
  intro k
  induction k with
  | zero =>
    simp only [Function.iterate_zero_apply, Nat.add_zero]
    omega
  | succ m ih =>
    rw [Function.iterate_succ_apply']
    simp only [rotate_bucket]
    rw [Fin.val_add, ih, show ((1 : Fin 60)).val = 1 from rfl]
    omega

theorem rotate_iter_start (h : Hist) (hs : h.s_curr_bucket_start_ms < U32) :
    ∀ k, (rotate_bucket^[k] h).s_curr_bucket_start_ms =
      (h.s_curr_bucket_start_ms + k * 60000) % U32 := by
  intro k
  induction k with
  | zero =>
    simp only [Function.iterate_zero_apply]
    simp only [U32] at hs ⊢
    omega
  | succ m ih =>
    rw [Function.iterate_succ_apply']
    simp only [rotate_bucket]
    rw [ih]
    simp only [U32]
    omega

theorem rotate_iter_buckets (h : Hist) :
    ∀ k j, (rotate_bucket^[k] h).s_steps_per_min j =
      if bucket_evicted h.s_curr_min_idx k j then 0 else h.s_steps_per_min j := by
  intro k
  induction k with
  | zero =>
    intro j
    rw [if_neg]
    · rfl
    · unfold bucket_evicted
      omega
  | succ m ih =>
    intro j
    have hvv : ((rotate_bucket^[m] h).s_curr_min_idx + 1).val =
        (h.s_curr_min_idx.val + m + 1) % 60 := by
      rw [Fin.val_add, rotate_iter_idx h m, show ((1 : Fin 60)).val = 1 from rfl]
      omega
    have hvb := h.s_curr_min_idx.isLt
    rw [Function.iterate_succ_apply']
    simp only [rotate_bucket]
    by_cases hj : j = (rotate_bucket^[m] h).s_curr_min_idx + 1
    · subst hj
      have hev : bucket_evicted h.s_curr_min_idx (m + 1)
          ((rotate_bucket^[m] h).s_curr_min_idx + 1) := by
        unfold bucket_evicted
        rw [hvv]
        omega
      rw [Function.update_same, if_pos hev]
    · have hneq : j.val ≠ (h.s_curr_min_idx.val + m + 1) % 60 := by
        intro he
        exact hj (Fin.ext (by rw [hvv]; exact he))
      have hjv := j.isLt
      have hiff : bucket_evicted h.s_curr_min_idx (m + 1) j ↔
          bucket_evicted h.s_curr_min_idx m j := by
        unfold bucket_evicted
        omega
      rw [Function.update_noteq hj, ih j]
      exact (if_congr hiff.symm rfl rfl)

theorem rotate_iter_sum (h : Hist) (hinv : hist_inv h)
    (hs : h.s_steps_last_hour_sum < U32) :
    ∀ k, (rotate_bucket^[k] h).s_steps_last_hour_sum =
      h.s_steps_last_hour_sum -
        ∑ j ∈ Finset.univ.filter (bucket_evicted h.s_curr_min_idx k),
          h.s_steps_per_min j := by
  intro k
  induction k with
  | zero =>
    rw [Finset.filter_false_of_mem (fun j _ => by unfold bucket_evicted; omega)]
    simp
  | succ m ih =>
    have hvv : ((rotate_bucket^[m] h).s_curr_min_idx + 1).val =
        (h.s_curr_min_idx.val + m + 1) % 60 := by
      rw [Fin.val_add, rotate_iter_idx h m, show ((1 : Fin 60)).val = 1 from rfl]
      omega
    have hvb := h.s_curr_min_idx.isLt
    have hfilter : Finset.univ.filter (bucket_evicted h.s_curr_min_idx (m + 1)) =
        insert ((rotate_bucket^[m] h).s_curr_min_idx + 1)
          (Finset.univ.filter (bucket_evicted h.s_curr_min_idx m)) := by
      ext j
      simp only [Finset.mem_insert, Finset.mem_filter, Finset.mem_univ, true_and]
      have hj_iff : j = (rotate_bucket^[m] h).s_curr_min_idx + 1 ↔
          j.val = (h.s_curr_min_idx.val + m + 1) % 60 := by
        constructor
        · intro e; rw [e, hvv]
        · intro e; exact Fin.ext (by rw [hvv]; exact e)
      rw [hj_iff]
      have hjv := j.isLt
      unfold bucket_evicted
      omega
    rw [Function.iterate_succ_apply']
    simp only [rotate_bucket]
    rw [ih, rotate_iter_buckets h m, hfilter]
    by_cases hin : bucket_evicted h.s_curr_min_idx m
        ((rotate_bucket^[m] h).s_curr_min_idx + 1)
    · rw [if_pos hin, Finset.insert_eq_self.2
        (Finset.mem_filter.2 ⟨Finset.mem_univ _, hin⟩)]
      have hle : ∑ j ∈ Finset.univ.filter (bucket_evicted h.s_curr_min_idx m),
          h.s_steps_per_min j ≤ h.s_steps_last_hour_sum := by
        rw [hinv]
        exact Finset.sum_le_sum_of_subset (Finset.filter_subset _ _)
      simp only [U32] at *
      omega
    · have hnotmem : (rotate_bucket^[m] h).s_curr_min_idx + 1 ∉
          Finset.univ.filter (bucket_evicted h.s_curr_min_idx m) :=
        fun hm => hin (Finset.mem_filter.1 hm).2
      rw [if_neg hin, Finset.sum_insert hnotmem]
      have hle : h.s_steps_per_min ((rotate_bucket^[m] h).s_curr_min_idx + 1) +
          ∑ j ∈ Finset.univ.filter (bucket_evicted h.s_curr_min_idx m),
            h.s_steps_per_min j ≤ h.s_steps_last_hour_sum := by
        have hsub : ∑ j ∈ insert ((rotate_bucket^[m] h).s_curr_min_idx + 1)
            (Finset.univ.filter (bucket_evicted h.s_curr_min_idx m)),
              h.s_steps_per_min j ≤ ∑ j, h.s_steps_per_min j :=
          Finset.sum_le_sum_of_subset (Finset.subset_univ _)
        rw [Finset.sum_insert hnotmem] at hsub
        rw [hinv]
        exact hsub
      simp only [U32] at *
      omega

/-- Claim C2 (amended): for an aligned histogram (`bucket_start ≠ 0`, wrapping
distance `now0 - bucket_start < 60000`) satisfying the running-sum invariant,
advancing with `now_ms` increased by exactly `k * 60000` — provided the total
elapsed distance `d + k * 60000` stays below the 2^32 clock span, so the jump
itself does not wrap the uint32 difference — rotates `current_index` by
`k mod 60`, zeroes exactly the buckets at forward distance `1..k` (all 60 for
`k ≥ 60`) while subtracting each evicted bucket's old value from the running
sum, and for `k > 60` leaves every bucket zero and the running sum 0.  When
`d + k * 60000` reaches 2^32 the uint32 difference wraps and the loop body may
not run at all (see the counterexample). -/
theorem imu_C2_rotation (h : Hist) (now0 k : ℕ)
    (h0 : h.s_curr_bucket_start_ms ≠ 0)
    (hslt : h.s_curr_bucket_start_ms < U32)
    (hn : now0 < U32)
    (hal : (now0 + U32 - h.s_curr_bucket_start_ms) % U32 < 60000)
    (hnw : (now0 + U32 - h.s_curr_bucket_start_ms) % U32 + k * 60000 < U32)
    (hinv : hist_inv h) (hsum : h.s_steps_last_hour_sum < U32) :
    ((imu_history_advance_buckets h (now0 + k * 60000)).s_curr_min_idx.val =
        (h.s_curr_min_idx.val + k) % 60) ∧
    ((imu_history_advance_buckets h (now0 + k * 60000)).s_curr_bucket_start_ms =
        (h.s_curr_bucket_start_ms + k * 60000) % U32) ∧
    (∀ j, (imu_history_advance_buckets h (now0 + k * 60000)).s_steps_per_min j =
        if bucket_evicted h.s_curr_min_idx k j then 0 else h.s_steps_per_min j) ∧
    ((imu_history_advance_buckets h (now0 + k * 60000)).s_steps_last_hour_sum =
        h.s_steps_last_hour_sum -
          ∑ j ∈ Finset.univ.filter (bucket_evicted h.s_curr_min_idx k),
            h.s_steps_per_min j) ∧
    (60 < k →
      (∀ j, (imu_history_advance_buckets h (now0 + k * 60000)).s_steps_per_min j = 0) ∧
      (imu_history_advance_buckets h (now0 + k * 60000)).s_steps_last_hour_sum = 0) := by
  have hd2 : ((now0 + k * 60000) % U32 + U32 - h.s_curr_bucket_start_ms % U32) % U32 =
      (now0 + U32 - h.s_curr_bucket_start_ms) % U32 + k * 60000 := by
    simp only [U32] at hslt hn hal hnw ⊢
    omega
  have hiter : imu_history_advance_buckets h (now0 + k * 60000) = rotate_bucket^[k] h := by
    rw [advance_eq_go h _ h0, hd2]
    rw [show ((now0 + U32 - h.s_curr_bucket_start_ms) % U32 + k * 60000) / 60000 = k from by
      simp only [U32] at hal ⊢
      omega]
    exact advance_go_rotations k h _ _ hal hd2
  rw [hiter]
  refine ⟨rotate_iter_idx h k, rotate_iter_start h hslt k, rotate_iter_buckets h k,
    rotate_iter_sum h hinv hsum k, ?_⟩
  intro hk
  have hev : ∀ j : Fin 60, bucket_evicted h.s_curr_min_idx k j := fun j => by
    unfold bucket_evicted
    omega
  constructor
  · intro j
    rw [rotate_iter_buckets h k j, if_pos (hev j)]
  · rw [rotate_iter_sum h hinv hsum k,
      Finset.filter_true_of_mem (fun j _ => hev j)]
    unfold hist_inv at hinv
    omega

theorem imu_C2_witness :
    (imu_history_advance_buckets c2_hist (1500 + 2 * 60000)).s_curr_min_idx.val = 2 ∧
    (imu_history_advance_buckets c2_hist (1500 + 2 * 60000)).s_steps_last_hour_sum = 0 := by
  have H := imu_C2_rotation c2_hist 1500 2 (by decide) (by decide) (by decide) (by decide)
    (by decide) (by decide) (by decide)
  exact ⟨by rw [H.1]; decide, H.2.2.2.1.trans (by decide)⟩

/-- Claim C2 (counterexample): from the aligned histogram `c2cx_hist`
(`bucket_start = 60000`, previous `now = 60000`, distance 0), increasing
`now_ms` by exactly `k * 60000` for `k = 71583 > 60` wraps the uint32 clock:
the wrapped difference is 12704 < 60000, so the loop does not run at all — the
index stays 0 instead of rotating by `71583 mod 60 = 3`, the current bucket
keeps its 5 steps, and the running sum stays 5 instead of 0. -/
theorem imu_C2_counterexample :
    (imu_history_advance_buckets c2cx_hist ((60000 + 71583 * 60000) % U32)).s_steps_last_hour_sum
        = 5 ∧
    (imu_history_advance_buckets c2cx_hist
        ((60000 + 71583 * 60000) % U32)).s_steps_per_min 0 = 5 ∧
    (imu_history_advance_buckets c2cx_hist ((60000 + 71583 * 60000) % U32)).s_curr_min_idx.val
        = 0 ∧
    71583 % 60 = 3 ∧ 60 < 71583 := by decide
